import Mathlib

/-!
Verification of the CartPole simulation core (`src/utils/physics.ts` and the
shared type declarations).  The two operations of the core — `updatePhysics`
(the physics stepper) and `getInitialState` (the episode initializer) — are
embedded shallowly: JavaScript numbers become real numbers, the ambient
`Math.random()` source becomes an explicit stream of draws, and the internal
`const` bindings of the stepper become named definitions.
-/

namespace CartPole

/-- The discrete action set, from the shared type declarations:
`LEFT = 0`, `RIGHT = 1`. -/
inductive Action
  | LEFT
  | RIGHT
deriving DecidableEq

/-- The termination code of a simulation state, from the shared type
declarations: one of running, pole_fell, out_of_bounds, max_steps,
manual_stop. -/
inductive TerminatedCode
  | running
  | pole_fell
  | out_of_bounds
  | max_steps
  | manual_stop
deriving DecidableEq

/-- The immutable per-episode parameter set, from the shared type
declarations (`SimulationConfig`). -/
structure SimulationConfig where
  gravity : ℝ
  cartMass : ℝ
  poleMass : ℝ
  poleLength : ℝ
  forceMag : ℝ
  tau : ℝ
  maxSteps : ℕ
  xThreshold : ℝ
  thetaThresholdDegrees : ℝ

/-- The evolving simulation state, from the shared type declarations
(`SimulationState`). -/
structure SimulationState where
  x : ℝ
  xDot : ℝ
  theta : ℝ
  thetaDot : ℝ
  done : Bool
  steps : ℕ
  terminatedCode : TerminatedCode

/-- `totalMass = cartMass + poleMass` (binding inside `updatePhysics`). -/
def totalMass (config : SimulationConfig) : ℝ :=
  config.cartMass + config.poleMass

/-- `poleMassLength = poleMass * poleLength` (binding inside
`updatePhysics`). -/
def poleMassLength (config : SimulationConfig) : ℝ :=
  config.poleMass * config.poleLength

/-- `force = action === Action.RIGHT ? forceMag : -forceMag` (binding inside
`updatePhysics`). -/
def forceOf (action : Action) (config : SimulationConfig) : ℝ :=
  if action = Action.RIGHT then config.forceMag else -config.forceMag

/-- `temp = (force + poleMassLength * thetaDot * thetaDot * sintheta) /
totalMass` (binding inside `updatePhysics`). -/
noncomputable def tempOf (state : SimulationState) (action : Action)
    (config : SimulationConfig) : ℝ :=
  (forceOf action config +
      poleMassLength config * state.thetaDot * state.thetaDot *
        Real.sin state.theta) /
    totalMass config

/-- The denominator `poleLength * (4.0 / 3.0 - poleMass * costheta * costheta
/ totalMass)` of the `thetaAcc` binding inside `updatePhysics`. -/
noncomputable def thetaAccDenom (config : SimulationConfig) (theta : ℝ) : ℝ :=
  config.poleLength *
    (4.0 / 3.0 -
      config.poleMass * Real.cos theta * Real.cos theta / totalMass config)

/-- `thetaAcc = (gravity * sintheta - costheta * temp) / (poleLength *
(4.0 / 3.0 - poleMass * costheta * costheta / totalMass))` (binding inside
`updatePhysics`). -/
noncomputable def thetaAccOf (state : SimulationState) (action : Action)
    (config : SimulationConfig) : ℝ :=
  (config.gravity * Real.sin state.theta -
      Real.cos state.theta * tempOf state action config) /
    thetaAccDenom config state.theta

/-- `xAcc = temp - poleMassLength * thetaAcc * costheta / totalMass`
(binding inside `updatePhysics`). -/
noncomputable def xAccOf (state : SimulationState) (action : Action)
    (config : SimulationConfig) : ℝ :=
  tempOf state action config -
    poleMassLength config * thetaAccOf state action config *
      Real.cos state.theta / totalMass config

/-- `thetaThresholdRad = thetaThresholdDegrees * Math.PI / 180` (binding
inside `updatePhysics`). -/
noncomputable def thetaThresholdRad (config : SimulationConfig) : ℝ :=
  config.thetaThresholdDegrees * Real.pi / 180

/-- The physics stepper, from `src/utils/physics.ts`.  Euler integration of
the cart-pole dynamics followed by the termination checks; the two mutable
bindings `done` and `terminatedCode` of the source are modelled as the pair
`dc`, initialized to `(false, running)` and overwritten by the matching
branch of the `if`/`else if` chain. -/
noncomputable def updatePhysics (state : SimulationState) (action : Action)
    (config : SimulationConfig) : SimulationState :=
  let nextX := state.x + config.tau * state.xDot
  let nextXDot := state.xDot + config.tau * xAccOf state action config
  let nextTheta := state.theta + config.tau * state.thetaDot
  let nextThetaDot := state.thetaDot + config.tau * thetaAccOf state action config
  let nextSteps := state.steps + 1
  let dc : Bool × TerminatedCode :=
    if nextX < -config.xThreshold ∨ nextX > config.xThreshold then
      (true, TerminatedCode.out_of_bounds)
    else if nextTheta < -thetaThresholdRad config ∨
        nextTheta > thetaThresholdRad config then
      (true, TerminatedCode.pole_fell)
    else if nextSteps ≥ config.maxSteps then
      (true, TerminatedCode.max_steps)
    else
      (false, TerminatedCode.running)
  { x := nextX
    xDot := nextXDot
    theta := nextTheta
    thetaDot := nextThetaDot
    done := dc.1
    steps := nextSteps
    terminatedCode := dc.2 }

/-- The episode initializer, from `src/utils/physics.ts`.  The ambient
`Math.random()` source is modelled as a stream `rand` of draws; the source
calls it four times (`rand() * 0.1 - 0.05`), once per randomized field, in
the order x, xDot, theta, thetaDot. -/
def getInitialState (rand : ℕ → ℝ) : SimulationState :=
  { x := rand 0 * 0.1 - 0.05
    xDot := rand 1 * 0.1 - 0.05
    theta := rand 2 * 0.1 - 0.05
    thetaDot := rand 3 * 0.1 - 0.05
    done := false
    steps := 0
    terminatedCode := TerminatedCode.running }

/- Projection lemmas for the stepper: each numeric field of the returned
record is the corresponding Euler update. -/

lemma updatePhysics_x (s : SimulationState) (a : Action) (cfg : SimulationConfig) :
    (updatePhysics s a cfg).x = s.x + cfg.tau * s.xDot := rfl

lemma updatePhysics_xDot (s : SimulationState) (a : Action) (cfg : SimulationConfig) :
    (updatePhysics s a cfg).xDot = s.xDot + cfg.tau * xAccOf s a cfg := rfl

lemma updatePhysics_theta (s : SimulationState) (a : Action) (cfg : SimulationConfig) :
    (updatePhysics s a cfg).theta = s.theta + cfg.tau * s.thetaDot := rfl

lemma updatePhysics_thetaDot (s : SimulationState) (a : Action) (cfg : SimulationConfig) :
    (updatePhysics s a cfg).thetaDot = s.thetaDot + cfg.tau * thetaAccOf s a cfg := rfl

lemma updatePhysics_steps (s : SimulationState) (a : Action) (cfg : SimulationConfig) :
    (updatePhysics s a cfg).steps = s.steps + 1 := rfl

/-- The termination code of the stepper's output, written as the
`if`/`else if` chain of the source. -/
lemma updatePhysics_terminatedCode (s : SimulationState) (a : Action)
    (cfg : SimulationConfig) :
    (updatePhysics s a cfg).terminatedCode =
      if s.x + cfg.tau * s.xDot < -cfg.xThreshold ∨
          s.x + cfg.tau * s.xDot > cfg.xThreshold then
        TerminatedCode.out_of_bounds
      else if s.theta + cfg.tau * s.thetaDot < -thetaThresholdRad cfg ∨
          s.theta + cfg.tau * s.thetaDot > thetaThresholdRad cfg then
        TerminatedCode.pole_fell
      else if s.steps + 1 ≥ cfg.maxSteps then
        TerminatedCode.max_steps
      else
        TerminatedCode.running := by
  unfold updatePhysics
  dsimp only
  split_ifs <;> rfl

/-- The done flag of the stepper's output, written as the `if`/`else if`
chain of the source. -/
lemma updatePhysics_done (s : SimulationState) (a : Action)
    (cfg : SimulationConfig) :
    (updatePhysics s a cfg).done =
      if s.x + cfg.tau * s.xDot < -cfg.xThreshold ∨
          s.x + cfg.tau * s.xDot > cfg.xThreshold then
        true
      else if s.theta + cfg.tau * s.thetaDot < -thetaThresholdRad cfg ∨
          s.theta + cfg.tau * s.thetaDot > thetaThresholdRad cfg then
        true
      else if s.steps + 1 ≥ cfg.maxSteps then
        true
      else
        false := by
  unfold updatePhysics
  dsimp only
  split_ifs <;> rfl

/- Spec-side acceleration formulas, written from the specification's words
("temp = (force + poleMass*poleLength * thetaDot^2 * sin(theta)) /
(cartMass + poleMass)" and so on), to be compared with the source-side
bindings above. -/

/-- Modelled from the spec's formula for `temp`. -/
noncomputable def specTemp (force : ℝ) (state : SimulationState)
    (config : SimulationConfig) : ℝ :=
  (force +
      config.poleMass * config.poleLength * state.thetaDot ^ 2 *
        Real.sin state.theta) /
    (config.cartMass + config.poleMass)

/-- Modelled from the spec's formula for `thetaAcc`. -/
noncomputable def specThetaAcc (force : ℝ) (state : SimulationState)
    (config : SimulationConfig) : ℝ :=
  (config.gravity * Real.sin state.theta -
      Real.cos state.theta * specTemp force state config) /
    (config.poleLength *
      (4 / 3 -
        config.poleMass * Real.cos state.theta ^ 2 /
          (config.cartMass + config.poleMass)))

/-- Modelled from the spec's formula for `xAcc`. -/
noncomputable def specXAcc (force : ℝ) (state : SimulationState)
    (config : SimulationConfig) : ℝ :=
  specTemp force state config -
    config.poleMass * config.poleLength * specThetaAcc force state config *
      Real.cos state.theta / (config.cartMass + config.poleMass)

/-- C1: for every state and config, `updatePhysics` computes the
accelerations exactly as specified — the integrated velocities advance by
`tau` times the spec's `xAcc`/`thetaAcc` formulas, with `force = +forceMag`
for RIGHT and `force = -forceMag` for LEFT. -/
theorem updatePhysics_computes_spec_accelerations (s : SimulationState)
    (cfg : SimulationConfig) :
    ((updatePhysics s Action.RIGHT cfg).xDot =
        s.xDot + cfg.tau * specXAcc cfg.forceMag s cfg ∧
      (updatePhysics s Action.RIGHT cfg).thetaDot =
        s.thetaDot + cfg.tau * specThetaAcc cfg.forceMag s cfg) ∧
    ((updatePhysics s Action.LEFT cfg).xDot =
        s.xDot + cfg.tau * specXAcc (-cfg.forceMag) s cfg ∧
      (updatePhysics s Action.LEFT cfg).thetaDot =
        s.thetaDot + cfg.tau * specThetaAcc (-cfg.forceMag) s cfg) := by
  have hforceR : forceOf Action.RIGHT cfg = cfg.forceMag := rfl
  have hforceL : forceOf Action.LEFT cfg = -cfg.forceMag := rfl
  have htempR : tempOf s Action.RIGHT cfg = specTemp cfg.forceMag s cfg := by
    unfold tempOf specTemp poleMassLength totalMass
    rw [hforceR]; ring
  have htempL : tempOf s Action.LEFT cfg = specTemp (-cfg.forceMag) s cfg := by
    unfold tempOf specTemp poleMassLength totalMass
    rw [hforceL]; ring
  have hthR : thetaAccOf s Action.RIGHT cfg = specThetaAcc cfg.forceMag s cfg := by
    unfold thetaAccOf specThetaAcc thetaAccDenom totalMass
    rw [htempR]; ring
  have hthL : thetaAccOf s Action.LEFT cfg = specThetaAcc (-cfg.forceMag) s cfg := by
    unfold thetaAccOf specThetaAcc thetaAccDenom totalMass
    rw [htempL]; ring
  have hxR : xAccOf s Action.RIGHT cfg = specXAcc cfg.forceMag s cfg := by
    unfold xAccOf specXAcc poleMassLength totalMass
    rw [htempR, hthR]
  have hxL : xAccOf s Action.LEFT cfg = specXAcc (-cfg.forceMag) s cfg := by
    unfold xAccOf specXAcc poleMassLength totalMass
    rw [htempL, hthL]
  refine ⟨⟨?_, ?_⟩, ?_, ?_⟩
  · rw [updatePhysics_xDot, hxR]
  · rw [updatePhysics_thetaDot, hthR]
  · rw [updatePhysics_xDot, hxL]
  · rw [updatePhysics_thetaDot, hthL]

/-- C2: the stepper integrates with explicit Euler — the position updates use
the pre-update velocities of the input state, while the velocity updates add
`tau` times the source's accelerations. -/
theorem updatePhysics_explicit_euler (s : SimulationState) (a : Action)
    (cfg : SimulationConfig) :
    (updatePhysics s a cfg).x = s.x + cfg.tau * s.xDot ∧
    (updatePhysics s a cfg).theta = s.theta + cfg.tau * s.thetaDot ∧
    (updatePhysics s a cfg).xDot = s.xDot + cfg.tau * xAccOf s a cfg ∧
    (updatePhysics s a cfg).thetaDot =
      s.thetaDot + cfg.tau * thetaAccOf s a cfg :=
  ⟨rfl, rfl, rfl, rfl⟩

/-- C5: the stepper increments the step counter by exactly one. -/
theorem updatePhysics_steps_succ (s : SimulationState) (a : Action)
    (cfg : SimulationConfig) :
    (updatePhysics s a cfg).steps = s.steps + 1 :=
  rfl

/-- C4: the done flag agrees with the termination code — `getInitialState`
returns `done = false` with code `running`, and every state returned by
`updatePhysics` has `done = true` exactly when its code differs from
`running`. -/
theorem done_iff_terminated_invariant :
    (∀ rand : ℕ → ℝ,
      (getInitialState rand).done = false ∧
      (getInitialState rand).terminatedCode = TerminatedCode.running) ∧
    (∀ (s : SimulationState) (a : Action) (cfg : SimulationConfig),
      (updatePhysics s a cfg).done = true ↔
        (updatePhysics s a cfg).terminatedCode ≠ TerminatedCode.running) := by
  refine ⟨fun rand => ⟨rfl, rfl⟩, fun s a cfg => ?_⟩
  rw [updatePhysics_done, updatePhysics_terminatedCode]
  split_ifs <;> simp

/-- The default parameter set, from `src/constants.ts`. -/
def DEFAULT_CONFIG : SimulationConfig where
  gravity := 9.8
  cartMass := 1.0
  poleMass := 0.1
  poleLength := 1.0
  forceMag := 10.0
  tau := 0.015
  maxSteps := 1000
  xThreshold := 2.4
  thetaThresholdDegrees := 24

/-- C3: the termination code of the stepper's output is the strict
priority chain of the source evaluated on the post-integration values,
and in particular whenever both the position check and the angle check
fire, the position check wins and the code is `out_of_bounds`. -/
theorem updatePhysics_termination_priority (s : SimulationState) (a : Action)
    (cfg : SimulationConfig) :
    ((updatePhysics s a cfg).terminatedCode =
      if s.x + cfg.tau * s.xDot < -cfg.xThreshold ∨
          s.x + cfg.tau * s.xDot > cfg.xThreshold then
        TerminatedCode.out_of_bounds
      else if s.theta + cfg.tau * s.thetaDot < -thetaThresholdRad cfg ∨
          s.theta + cfg.tau * s.thetaDot > thetaThresholdRad cfg then
        TerminatedCode.pole_fell
      else if s.steps + 1 ≥ cfg.maxSteps then
        TerminatedCode.max_steps
      else
        TerminatedCode.running) ∧
    ((s.x + cfg.tau * s.xDot < -cfg.xThreshold ∨
        s.x + cfg.tau * s.xDot > cfg.xThreshold) →
      (s.theta + cfg.tau * s.thetaDot < -thetaThresholdRad cfg ∨
        s.theta + cfg.tau * s.thetaDot > thetaThresholdRad cfg) →
      (updatePhysics s a cfg).terminatedCode = TerminatedCode.out_of_bounds) := by
  refine ⟨updatePhysics_terminatedCode s a cfg, fun h1 _ => ?_⟩
  rw [updatePhysics_terminatedCode, if_pos h1]

/-- A state whose single step exceeds both the position and the angle
threshold of `c3Config`. -/
def c3State : SimulationState where
  x := 2
  xDot := 0
  theta := 1
  thetaDot := 0
  done := false
  steps := 0
  terminatedCode := TerminatedCode.running

/-- A config with a tight track limit and a zero angle limit, for the
priority-order witness. -/
def c3Config : SimulationConfig where
  gravity := 9.8
  cartMass := 1
  poleMass := 1
  poleLength := 1
  forceMag := 1
  tau := 1
  maxSteps := 10
  xThreshold := 1
  thetaThresholdDegrees := 0

/-- Witness for C3: a concrete step that exceeds both thresholds is coded
`out_of_bounds`. -/
theorem updatePhysics_termination_priority_witness :
    (c3State.x + c3Config.tau * c3State.xDot < -c3Config.xThreshold ∨
      c3State.x + c3Config.tau * c3State.xDot > c3Config.xThreshold) ∧
    (c3State.theta + c3Config.tau * c3State.thetaDot <
        -thetaThresholdRad c3Config ∨
      c3State.theta + c3Config.tau * c3State.thetaDot >
        thetaThresholdRad c3Config) ∧
    (updatePhysics c3State Action.LEFT c3Config).terminatedCode =
      TerminatedCode.out_of_bounds := by
  have h1 : c3State.x + c3Config.tau * c3State.xDot < -c3Config.xThreshold ∨
      c3State.x + c3Config.tau * c3State.xDot > c3Config.xThreshold :=
    Or.inr (by norm_num [c3State, c3Config])
  have h2 : c3State.theta + c3Config.tau * c3State.thetaDot <
        -thetaThresholdRad c3Config ∨
      c3State.theta + c3Config.tau * c3State.thetaDot >
        thetaThresholdRad c3Config :=
    Or.inr (by norm_num [c3State, c3Config, thetaThresholdRad])
  exact ⟨h1, h2,
    (updatePhysics_termination_priority c3State Action.LEFT c3Config).2 h1 h2⟩

/-- C6: for draws from `[0,1)` the initializer produces each randomized field
as `rand * 0.1 - 0.05`, hence inside `[-0.05, 0.05]`, with `steps = 0`,
`done = false` and code `running`. -/
theorem getInitialState_contract (rand : ℕ → ℝ)
    (h : ∀ i, 0 ≤ rand i ∧ rand i < 1) :
    (getInitialState rand).x = rand 0 * 0.1 - 0.05 ∧
    (getInitialState rand).xDot = rand 1 * 0.1 - 0.05 ∧
    (getInitialState rand).theta = rand 2 * 0.1 - 0.05 ∧
    (getInitialState rand).thetaDot = rand 3 * 0.1 - 0.05 ∧
    (getInitialState rand).x ∈ Set.Icc (-0.05 : ℝ) 0.05 ∧
    (getInitialState rand).xDot ∈ Set.Icc (-0.05 : ℝ) 0.05 ∧
    (getInitialState rand).theta ∈ Set.Icc (-0.05 : ℝ) 0.05 ∧
    (getInitialState rand).thetaDot ∈ Set.Icc (-0.05 : ℝ) 0.05 ∧
    (getInitialState rand).steps = 0 ∧
    (getInitialState rand).done = false ∧
    (getInitialState rand).terminatedCode = TerminatedCode.running := by
  have key : ∀ i, rand i * 0.1 - 0.05 ∈ Set.Icc (-0.05 : ℝ) 0.05 := by
    intro i
    obtain ⟨h0, h1⟩ := h i
    rw [Set.mem_Icc]
    constructor <;> linarith
  exact ⟨rfl, rfl, rfl, rfl, key 0, key 1, key 2, key 3, rfl, rfl, rfl⟩

/-- The constant stream of zero draws, for the initializer witness. -/
def c6Rand : ℕ → ℝ := fun _ => 0

/-- Witness for C6: at the all-zero draw stream the hypotheses hold and the
initializer's output fields land in the advertised interval. -/
theorem getInitialState_contract_witness :
    (∀ i, 0 ≤ c6Rand i ∧ c6Rand i < 1) ∧
    (getInitialState c6Rand).x ∈ Set.Icc (-0.05 : ℝ) 0.05 ∧
    (getInitialState c6Rand).terminatedCode = TerminatedCode.running := by
  have h : ∀ i, 0 ≤ c6Rand i ∧ c6Rand i < 1 := fun i => by norm_num [c6Rand]
  exact ⟨h, (getInitialState_contract c6Rand h).2.2.2.2.1,
    (getInitialState_contract c6Rand h).2.2.2.2.2.2.2.2.2.2⟩

/-- C7: the pole-angle check uses strict inequalities only (for a
nonnegative configured threshold, as the data model requires): with the
position check not triggered, a post-integration angle exactly at
`±thetaThresholdRad` is not coded `pole_fell`, while an angle strictly
beyond it (with steps below the budget) gives `done = true` and code
`pole_fell`. -/
theorem pole_fell_strict_inequality (s : SimulationState) (a : Action)
    (cfg : SimulationConfig) (hdeg : 0 ≤ cfg.thetaThresholdDegrees)
    (hpos : ¬(s.x + cfg.tau * s.xDot < -cfg.xThreshold ∨
        s.x + cfg.tau * s.xDot > cfg.xThreshold)) :
    ((s.theta + cfg.tau * s.thetaDot = thetaThresholdRad cfg ∨
        s.theta + cfg.tau * s.thetaDot = -thetaThresholdRad cfg) →
      (updatePhysics s a cfg).terminatedCode ≠ TerminatedCode.pole_fell) ∧
    ((s.theta + cfg.tau * s.thetaDot < -thetaThresholdRad cfg ∨
        s.theta + cfg.tau * s.thetaDot > thetaThresholdRad cfg) →
      s.steps < cfg.maxSteps →
      (updatePhysics s a cfg).done = true ∧
        (updatePhysics s a cfg).terminatedCode = TerminatedCode.pole_fell) := by
  have hrad : 0 ≤ thetaThresholdRad cfg := by
    unfold thetaThresholdRad
    exact div_nonneg (mul_nonneg hdeg Real.pi_pos.le) (by norm_num)
  constructor
  · intro heq
    have hnot : ¬(s.theta + cfg.tau * s.thetaDot < -thetaThresholdRad cfg ∨
        s.theta + cfg.tau * s.thetaDot > thetaThresholdRad cfg) := by
      intro hc
      rcases heq with h | h <;> rw [h] at hc <;> rcases hc with hc | hc <;>
        linarith
    rw [updatePhysics_terminatedCode, if_neg hpos, if_neg hnot]
    split_ifs <;> simp
  · intro hbeyond _
    constructor
    · rw [updatePhysics_done, if_neg hpos, if_pos hbeyond]
    · rw [updatePhysics_terminatedCode, if_neg hpos, if_pos hbeyond]

/-- The all-zero start state (also the start state of the end-to-end
scenario of the spec). -/
def zeroState : SimulationState where
  x := 0
  xDot := 0
  theta := 0
  thetaDot := 0
  done := false
  steps := 0
  terminatedCode := TerminatedCode.running

/-- A config with a zero angle limit, for the strict-inequality witness:
the zero state sits exactly at the threshold. -/
def c7Config : SimulationConfig where
  gravity := 9.8
  cartMass := 1
  poleMass := 0.1
  poleLength := 1
  forceMag := 10
  tau := 1
  maxSteps := 10
  xThreshold := 2.4
  thetaThresholdDegrees := 0

/-- Witness for C7: a post-integration angle exactly at the threshold is
not coded `pole_fell`. -/
theorem pole_fell_strict_inequality_witness :
    0 ≤ c7Config.thetaThresholdDegrees ∧
    ¬(zeroState.x + c7Config.tau * zeroState.xDot < -c7Config.xThreshold ∨
      zeroState.x + c7Config.tau * zeroState.xDot > c7Config.xThreshold) ∧
    (zeroState.theta + c7Config.tau * zeroState.thetaDot =
        thetaThresholdRad c7Config ∨
      zeroState.theta + c7Config.tau * zeroState.thetaDot =
        -thetaThresholdRad c7Config) ∧
    (updatePhysics zeroState Action.LEFT c7Config).terminatedCode ≠
      TerminatedCode.pole_fell := by
  have hdeg : 0 ≤ c7Config.thetaThresholdDegrees := by norm_num [c7Config]
  have hpos : ¬(zeroState.x + c7Config.tau * zeroState.xDot <
        -c7Config.xThreshold ∨
      zeroState.x + c7Config.tau * zeroState.xDot > c7Config.xThreshold) := by
    norm_num [zeroState, c7Config]
  have heq : zeroState.theta + c7Config.tau * zeroState.thetaDot =
        thetaThresholdRad c7Config ∨
      zeroState.theta + c7Config.tau * zeroState.thetaDot =
        -thetaThresholdRad c7Config :=
    Or.inl (by simp [zeroState, c7Config, thetaThresholdRad])
  exact ⟨hdeg, hpos, heq,
    (pole_fell_strict_inequality zeroState Action.LEFT c7Config hdeg hpos).1
      heq⟩

/-- C10: for positive masses and pole length the denominator of the
`thetaAcc` computation is strictly positive at every angle, so the stepper
performs no division by zero there. -/
theorem thetaAccDenom_pos (cfg : SimulationConfig) (theta : ℝ)
    (hcart : 0 < cfg.cartMass) (hpole : 0 < cfg.poleMass)
    (hlen : 0 < cfg.poleLength) :
    0 < thetaAccDenom cfg theta := by
  unfold thetaAccDenom totalMass
  have hc1 : Real.cos theta ≤ 1 := Real.cos_le_one theta
  have hc2 : -1 ≤ Real.cos theta := Real.neg_one_le_cos theta
  have htm : 0 < cfg.cartMass + cfg.poleMass := by linarith
  have hfrac : cfg.poleMass * Real.cos theta * Real.cos theta /
      (cfg.cartMass + cfg.poleMass) < 1 := by
    rw [div_lt_one htm]
    nlinarith [mul_nonneg (mul_nonneg hpole.le (sub_nonneg.mpr hc1))
      (by linarith : (0:ℝ) ≤ 1 + Real.cos theta)]
  apply mul_pos hlen
  have h43 : (1 : ℝ) < 4.0 / 3.0 := by norm_num
  linarith

/-- Witness for C10: the repository's default config has positive masses
and pole length, and its `thetaAcc` denominator is positive at angle 0. -/
theorem thetaAccDenom_pos_witness :
    (0 < DEFAULT_CONFIG.cartMass ∧ 0 < DEFAULT_CONFIG.poleMass ∧
      0 < DEFAULT_CONFIG.poleLength) ∧
    0 < thetaAccDenom DEFAULT_CONFIG 0 := by
  refine ⟨⟨by norm_num [DEFAULT_CONFIG], by norm_num [DEFAULT_CONFIG],
    by norm_num [DEFAULT_CONFIG]⟩, ?_⟩
  exact thetaAccDenom_pos DEFAULT_CONFIG 0 (by norm_num [DEFAULT_CONFIG])
    (by norm_num [DEFAULT_CONFIG]) (by norm_num [DEFAULT_CONFIG])

/-- The config of the spec's end-to-end scenario. -/
def scenarioConfig : SimulationConfig where
  gravity := 9.8
  cartMass := 1.0
  poleMass := 0.1
  poleLength := 1.0
  forceMag := 10.0
  tau := 0.02
  maxSteps := 5
  xThreshold := 2.4
  thetaThresholdDegrees := 24

/-- The RIGHT-action run of the end-to-end scenario: k applications of the
stepper to the all-zero start state. -/
noncomputable def iterRight (k : ℕ) : SimulationState :=
  (fun s => updatePhysics s Action.RIGHT scenarioConfig)^[k] zeroState

/-- The LEFT-action run of the end-to-end scenario. -/
noncomputable def iterLeft (k : ℕ) : SimulationState :=
  (fun s => updatePhysics s Action.LEFT scenarioConfig)^[k] zeroState

lemma iterRight_succ (k : ℕ) :
    iterRight (k + 1) = updatePhysics (iterRight k) Action.RIGHT scenarioConfig := by
  unfold iterRight
  rw [Function.iterate_succ_apply']

lemma iterLeft_succ (k : ℕ) :
    iterLeft (k + 1) = updatePhysics (iterLeft k) Action.LEFT scenarioConfig := by
  unfold iterLeft
  rw [Function.iterate_succ_apply']

/-- Mirror symmetry of the accelerations: on a state whose numeric fields
are the negation of another's, the LEFT accelerations are the negations of
the RIGHT accelerations (sin is odd, cos is even, and the force changes
sign). -/
lemma acc_neg (s t : SimulationState) (cfg : SimulationConfig)
    (hth : s.theta = -t.theta) (htd : s.thetaDot = -t.thetaDot) :
    tempOf s Action.LEFT cfg = -tempOf t Action.RIGHT cfg ∧
    thetaAccOf s Action.LEFT cfg = -thetaAccOf t Action.RIGHT cfg ∧
    xAccOf s Action.LEFT cfg = -xAccOf t Action.RIGHT cfg := by
  have hsin : Real.sin s.theta = -Real.sin t.theta := by
    rw [hth, Real.sin_neg]
  have hcos : Real.cos s.theta = Real.cos t.theta := by
    rw [hth, Real.cos_neg]
  have htemp : tempOf s Action.LEFT cfg = -tempOf t Action.RIGHT cfg := by
    unfold tempOf
    rw [show forceOf Action.LEFT cfg = -cfg.forceMag from rfl,
      show forceOf Action.RIGHT cfg = cfg.forceMag from rfl, hsin, htd]
    ring
  have hthacc : thetaAccOf s Action.LEFT cfg = -thetaAccOf t Action.RIGHT cfg := by
    unfold thetaAccOf thetaAccDenom
    rw [hsin, hcos, htemp]
    ring
  refine ⟨htemp, hthacc, ?_⟩
  unfold xAccOf
  rw [htemp, hthacc, hcos]
  ring

/-- One mirror step: the numeric fields of a LEFT step on the negated state
are the negations of those of a RIGHT step on the original state. -/
lemma updatePhysics_neg_fields (s t : SimulationState) (cfg : SimulationConfig)
    (hx : s.x = -t.x) (hxd : s.xDot = -t.xDot) (hth : s.theta = -t.theta)
    (htd : s.thetaDot = -t.thetaDot) :
    (updatePhysics s Action.LEFT cfg).x =
        -(updatePhysics t Action.RIGHT cfg).x ∧
    (updatePhysics s Action.LEFT cfg).xDot =
        -(updatePhysics t Action.RIGHT cfg).xDot ∧
    (updatePhysics s Action.LEFT cfg).theta =
        -(updatePhysics t Action.RIGHT cfg).theta ∧
    (updatePhysics s Action.LEFT cfg).thetaDot =
        -(updatePhysics t Action.RIGHT cfg).thetaDot := by
  obtain ⟨-, hacc2, hacc3⟩ := acc_neg s t cfg hth htd
  refine ⟨?_, ?_, ?_, ?_⟩ <;>
    simp only [updatePhysics_x, updatePhysics_xDot, updatePhysics_theta,
      updatePhysics_thetaDot, hx, hxd, hth, htd, hacc2, hacc3] <;>
    ring

/-- The numeric fields of the LEFT run are the negations of those of the
RIGHT run, at every step. -/
lemma iter_neg (k : ℕ) :
    (iterLeft k).x = -(iterRight k).x ∧
    (iterLeft k).xDot = -(iterRight k).xDot ∧
    (iterLeft k).theta = -(iterRight k).theta ∧
    (iterLeft k).thetaDot = -(iterRight k).thetaDot := by
  induction k with
  | zero =>
    refine ⟨?_, ?_, ?_, ?_⟩ <;>
      simp [iterLeft, iterRight, zeroState]
  | succ n ih =>
    obtain ⟨h1, h2, h3, h4⟩ := ih
    rw [iterLeft_succ, iterRight_succ]
    exact updatePhysics_neg_fields _ _ _ h1 h2 h3 h4

/-- C9: sign symmetry of the end-to-end scenario — the LEFT run's x value is
the exact negation of the RIGHT run's x value at every step. -/
theorem scenario_left_right_x_negation (k : ℕ) :
    (iterLeft k).x = -(iterRight k).x :=
  (iter_neg k).1

/- Numeric analysis of the RIGHT-action scenario run.  On the region the run
visits (pole slightly tipped to the left, swinging left, cart pushed right)
the accelerations admit the following interval bounds. -/

/-- Pure arithmetic core of the acceleration bounds: `sn`, `c`, `d` stand
for sin theta, cos theta and thetaDot, `T` for the temp term, `D` for the
thetaAcc denominator, `A` for thetaAcc and `X` for xAcc, tied together by
the denominator-cleared equations of the scenario config. -/
lemma scenario_acc_arith (sn c d T D A X : ℝ)
    (hs0 : sn ≤ 0) (hs1 : -1 ≤ sn) (hc0 : 0 ≤ c) (hc1 : c ≤ 1)
    (hd0 : -2 ≤ d) (hd1 : d ≤ 0)
    (htempEq : T * 1.1 = 10 + 0.1 * (d * d * sn))
    (hDEq : D * 1.1 = 22 / 15 - 0.1 * (c * c))
    (hADeq : A * D = 9.8 * sn - c * T)
    (hXeq : X = T - 1 / 11 * (A * c)) :
    (8 ≤ X ∧ X ≤ 11) ∧ (-16 ≤ A ∧ A ≤ 0) := by
  have hdd4 : d * d ≤ 4 := by
    nlinarith [mul_nonneg (by linarith : (0:ℝ) ≤ -d)
      (by linarith : (0:ℝ) ≤ d + 2)]
  have hdd0 : 0 ≤ d * d := mul_self_nonneg d
  have hdds0 : d * d * sn ≤ 0 := by
    have h0 : d * d * sn ≤ d * d * 0 := mul_le_mul_of_nonneg_left hs0 hdd0
    linarith
  have hdds1 : -4 ≤ d * d * sn := by
    have h6 : 4 * sn ≤ d * d * sn := mul_le_mul_of_nonpos_right hdd4 hs0
    linarith
  have htLB : 8.7 ≤ T := by linarith
  have htUB : T ≤ 9.1 := by linarith
  have hcc0 : 0 ≤ c * c := mul_self_nonneg c
  have hccUB : c * c ≤ 1 := by nlinarith
  have hDLB : 1.24 ≤ D := by linarith
  have hDUB : D ≤ 1.34 := by linarith
  have hD0 : (0:ℝ) < D := by linarith
  have hcT0 : 0 ≤ c * T := mul_nonneg hc0 (by linarith)
  have hcT1 : c * T ≤ 9.1 := by
    have h2 : c * T ≤ 1 * T := mul_le_mul_of_nonneg_right hc1 (by linarith)
    linarith
  have hADub : A * D ≤ 0 := by rw [hADeq]; linarith
  have hADlb : -18.9 ≤ A * D := by rw [hADeq]; linarith
  have hAub : A ≤ 0 := by
    by_contra hcon
    push_neg at hcon
    have h1 : 0 < A * D := mul_pos hcon hD0
    linarith
  have hAlb : -16 ≤ A := by
    by_contra hcon
    push_neg at hcon
    have h3 : A * D ≤ A * 1.24 := mul_le_mul_of_nonpos_left hDLB hAub
    linarith
  have hAc0 : A * c ≤ 0 := by
    have h4 : A * c ≤ A * 0 := mul_le_mul_of_nonpos_left hc0 hAub
    linarith
  have hAc1 : -16 ≤ A * c := by
    have h5 : A * 1 ≤ A * c := mul_le_mul_of_nonpos_left hc1 hAub
    linarith
  refine ⟨⟨?_, ?_⟩, hAlb, hAub⟩ <;> rw [hXeq] <;> linarith

/-- Bounds on the accelerations of a RIGHT step of the scenario config, for
states with `theta` in `[-0.2, 0]` and `thetaDot` in `[-2, 0]`. -/
lemma scenario_acc_bounds (s : SimulationState)
    (hth0 : -0.2 ≤ s.theta) (hth1 : s.theta ≤ 0)
    (htd0 : -2 ≤ s.thetaDot) (htd1 : s.thetaDot ≤ 0) :
    (8 ≤ xAccOf s Action.RIGHT scenarioConfig ∧
      xAccOf s Action.RIGHT scenarioConfig ≤ 11) ∧
    (-16 ≤ thetaAccOf s Action.RIGHT scenarioConfig ∧
      thetaAccOf s Action.RIGHT scenarioConfig ≤ 0) := by
  have hpi : (3 : ℝ) < Real.pi := Real.pi_gt_three
  have hc1 : Real.cos s.theta ≤ 1 := Real.cos_le_one _
  have hc0 : 0 ≤ Real.cos s.theta :=
    Real.cos_nonneg_of_neg_pi_div_two_le_of_le (by linarith) (by linarith)
  have hs0 : Real.sin s.theta ≤ 0 :=
    Real.sin_nonpos_of_nonnpos_of_neg_pi_le hth1 (by linarith)
  have hs1 : -1 ≤ Real.sin s.theta := Real.neg_one_le_sin _
  have htempEq : tempOf s Action.RIGHT scenarioConfig * 1.1 =
      10 + 0.1 * (s.thetaDot * s.thetaDot * Real.sin s.theta) := by
    unfold tempOf forceOf poleMassLength totalMass
    simp only [scenarioConfig]
    norm_num
    ring
  have hDEq : thetaAccDenom scenarioConfig s.theta * 1.1 =
      22 / 15 - 0.1 * (Real.cos s.theta * Real.cos s.theta) := by
    unfold thetaAccDenom totalMass
    simp only [scenarioConfig]
    norm_num
    ring
  have hD0 : (0:ℝ) < thetaAccDenom scenarioConfig s.theta := by
    nlinarith [mul_nonneg (by linarith : (0:ℝ) ≤ 1 - Real.cos s.theta)
      (by linarith : (0:ℝ) ≤ 1 + Real.cos s.theta)]
  have hADeq : thetaAccOf s Action.RIGHT scenarioConfig *
      thetaAccDenom scenarioConfig s.theta =
      9.8 * Real.sin s.theta -
        Real.cos s.theta * tempOf s Action.RIGHT scenarioConfig := by
    have h1 : thetaAccOf s Action.RIGHT scenarioConfig *
        thetaAccDenom scenarioConfig s.theta =
        scenarioConfig.gravity * Real.sin s.theta -
          Real.cos s.theta * tempOf s Action.RIGHT scenarioConfig :=
      div_mul_cancel₀ _ hD0.ne'
    rw [h1, show scenarioConfig.gravity = (9.8:ℝ) by norm_num [scenarioConfig]]
  have hXAeq : xAccOf s Action.RIGHT scenarioConfig =
      tempOf s Action.RIGHT scenarioConfig -
        1 / 11 * (thetaAccOf s Action.RIGHT scenarioConfig *
          Real.cos s.theta) := by
    have e5 : poleMassLength scenarioConfig *
        thetaAccOf s Action.RIGHT scenarioConfig * Real.cos s.theta /
        totalMass scenarioConfig =
        1 / 11 * (thetaAccOf s Action.RIGHT scenarioConfig *
          Real.cos s.theta) := by
      unfold poleMassLength totalMass
      simp only [scenarioConfig]
      norm_num
      ring
    unfold xAccOf
    rw [e5]
  exact scenario_acc_arith (Real.sin s.theta) (Real.cos s.theta) s.thetaDot
    (tempOf s Action.RIGHT scenarioConfig)
    (thetaAccDenom scenarioConfig s.theta)
    (thetaAccOf s Action.RIGHT scenarioConfig)
    (xAccOf s Action.RIGHT scenarioConfig)
    hs0 hs1 hc0 hc1 htd0 htd1 htempEq hDEq hADeq hXAeq

/-- Invariant of the RIGHT-action scenario run after `k` steps: the cart has
moved right but little, its velocity grows roughly linearly, and the pole
has tipped slightly to the left. -/
def scenarioInv (k : ℕ) (s : SimulationState) : Prop :=
  s.steps = k ∧
  0 ≤ s.x ∧ s.x ≤ 0.022 * (k : ℝ) ∧
  0.16 * (k : ℝ) ≤ s.xDot ∧ s.xDot ≤ 0.22 * (k : ℝ) ∧
  -(0.04 * (k : ℝ)) ≤ s.theta ∧ s.theta ≤ 0 ∧
  -(0.32 * (k : ℝ)) ≤ s.thetaDot ∧ s.thetaDot ≤ 0

/-- One RIGHT step of the scenario preserves the invariant (for the first
five steps). -/
lemma scenarioInv_succ (k : ℕ) (hk : k ≤ 4) (s : SimulationState)
    (h : scenarioInv k s) :
    scenarioInv (k + 1) (updatePhysics s Action.RIGHT scenarioConfig) := by
  obtain ⟨hsteps, hx0, hx1, hxd0, hxd1, hth0, hth1, htd0, htd1⟩ := h
  have hkR : (k : ℝ) ≤ 4 := by exact_mod_cast hk
  have hkR0 : (0 : ℝ) ≤ (k : ℝ) := Nat.cast_nonneg k
  obtain ⟨⟨hX8, hX11⟩, hA16, hA0⟩ :=
    scenario_acc_bounds s (by linarith) hth1 (by linarith) htd1
  have htau : scenarioConfig.tau = 0.02 := by norm_num [scenarioConfig]
  refine ⟨?_, ?_, ?_, ?_, ?_, ?_, ?_, ?_, ?_⟩
  · rw [updatePhysics_steps, hsteps]
  · rw [updatePhysics_x, htau]; linarith
  · rw [updatePhysics_x, htau]; push_cast; linarith
  · rw [updatePhysics_xDot, htau]; push_cast; linarith
  · rw [updatePhysics_xDot, htau]; push_cast; linarith
  · rw [updatePhysics_theta, htau]; push_cast; linarith
  · rw [updatePhysics_theta, htau]; linarith
  · rw [updatePhysics_thetaDot, htau]; push_cast; linarith
  · rw [updatePhysics_thetaDot, htau]; linarith

/-- The fifth RIGHT step of the scenario hits the step budget: neither
position nor angle is anywhere near its threshold, and the step counter
reaches `maxSteps = 5`. -/
lemma scenario_final (s : SimulationState) (h : scenarioInv 4 s) :
    (updatePhysics s Action.RIGHT scenarioConfig).steps = 5 ∧
    (updatePhysics s Action.RIGHT scenarioConfig).done = true ∧
    (updatePhysics s Action.RIGHT scenarioConfig).terminatedCode =
      TerminatedCode.max_steps := by
  obtain ⟨hsteps, hx0, hx1, hxd0, hxd1, hth0, hth1, htd0, htd1⟩ := h
  push_cast at hx1 hxd0 hxd1 hth0 htd0
  have htau : scenarioConfig.tau = 0.02 := by norm_num [scenarioConfig]
  have hxthr : scenarioConfig.xThreshold = 2.4 := by norm_num [scenarioConfig]
  have hpi : (3 : ℝ) < Real.pi := Real.pi_gt_three
  have hradLB : 0.4 < thetaThresholdRad scenarioConfig := by
    unfold thetaThresholdRad
    rw [show scenarioConfig.thetaThresholdDegrees = (24 : ℝ) by
      norm_num [scenarioConfig]]
    linarith
  have hpos : ¬(s.x + scenarioConfig.tau * s.xDot < -scenarioConfig.xThreshold ∨
      s.x + scenarioConfig.tau * s.xDot > scenarioConfig.xThreshold) := by
    rw [htau, hxthr]
    push_neg
    constructor <;> linarith
  have hth : ¬(s.theta + scenarioConfig.tau * s.thetaDot <
      -thetaThresholdRad scenarioConfig ∨
      s.theta + scenarioConfig.tau * s.thetaDot >
        thetaThresholdRad scenarioConfig) := by
    rw [htau]
    push_neg
    constructor <;> linarith
  have hms : s.steps + 1 ≥ scenarioConfig.maxSteps := by
    rw [hsteps]
    norm_num [scenarioConfig]
  refine ⟨?_, ?_, ?_⟩
  · rw [updatePhysics_steps, hsteps]
  · rw [updatePhysics_done, if_neg hpos, if_neg hth, if_pos hms]
  · rw [updatePhysics_terminatedCode, if_neg hpos, if_neg hth, if_pos hms]

/-- The invariant holds along the scenario run up to step 4. -/
lemma scenarioInv_iter (k : ℕ) (hk : k ≤ 4) : scenarioInv k (iterRight k) := by
  induction k with
  | zero =>
    refine ⟨rfl, ?_, ?_, ?_, ?_, ?_, ?_, ?_, ?_⟩ <;>
      norm_num [iterRight, zeroState]
  | succ n ih =>
    rw [iterRight_succ]
    exact scenarioInv_succ n (by omega) _ (ih (by omega))

/-- The cart does not move during the first scenario step: the position
update uses the pre-update cart velocity, which is zero at the start. -/
lemma iterRight_one_x : (iterRight 1).x = (iterRight 0).x := by
  have h10 : iterRight 1 =
      updatePhysics (iterRight 0) Action.RIGHT scenarioConfig :=
    iterRight_succ 0
  have hxd : (iterRight 0).xDot = 0 := rfl
  rw [h10, updatePhysics_x, hxd]
  ring

/-- C8 counterexample: in the end-to-end scenario the x value does NOT
strictly increase at the first step — it stays exactly 0, because explicit
Euler uses the zero pre-update velocity. -/
theorem scenario_first_step_x_not_increasing :
    ¬((iterRight 0).x < (iterRight 1).x) := by
  rw [iterRight_one_x]
  exact lt_irrefl _

/-- C8 amended: five RIGHT steps of the end-to-end scenario give
`steps = 5`, `done = true`, code `max_steps`, and the x value strictly
increases at steps 2 through 5 while remaining unchanged at step 1. -/
theorem scenario_right_run_amended :
    (iterRight 5).steps = 5 ∧
    (iterRight 5).done = true ∧
    (iterRight 5).terminatedCode = TerminatedCode.max_steps ∧
    (iterRight 1).x = (iterRight 0).x ∧
    (iterRight 1).x < (iterRight 2).x ∧
    (iterRight 2).x < (iterRight 3).x ∧
    (iterRight 3).x < (iterRight 4).x ∧
    (iterRight 4).x < (iterRight 5).x := by
  have htau : scenarioConfig.tau = 0.02 := by norm_num [scenarioConfig]
  have hfin := scenario_final (iterRight 4) (scenarioInv_iter 4 (by norm_num))
  have h5 : iterRight 5 =
      updatePhysics (iterRight 4) Action.RIGHT scenarioConfig :=
    iterRight_succ 4
  have hstep : ∀ k, 1 ≤ k → k ≤ 4 → (iterRight k).x < (iterRight (k + 1)).x := by
    intro k hk1 hk4
    obtain ⟨-, -, -, hxd0, -, -, -, -, -⟩ := scenarioInv_iter k hk4
    have hk1R : (1 : ℝ) ≤ (k : ℝ) := by exact_mod_cast hk1
    rw [iterRight_succ, updatePhysics_x, htau]
    linarith
  exact ⟨h5 ▸ hfin.1, h5 ▸ hfin.2.1, h5 ▸ hfin.2.2, iterRight_one_x,
    hstep 1 (by norm_num) (by norm_num), hstep 2 (by norm_num) (by norm_num),
    hstep 3 (by norm_num) (by norm_num), hstep 4 (by norm_num) (by norm_num)⟩

end CartPole
